import Mathlib

/-!
Shallow embedding of the camonanowallet core (Rust) in Lean 4, used to check
the natural-language specification against the code.

Conventions of the embedding:
* 32-byte values (accounts, block hashes, secrets) and 8-byte work nonces are
  modelled as `Nat`; equality on them is byte-level equality in the source,
  hence plain `Nat` equality here.
* `u128` balances are modelled as `Nat` together with explicit checks against
  `U128_MAX` exactly where the source uses `checked_add`.
* The on-chain primitives library (nanopyrs: Blake2b block hashing, Ed25519
  signing, PoW verification, camo/ECDH math) is external to the repository and
  is passed in as an explicit `Prims` / `CamoCtx` parameter; the wallet code is
  embedded literally on top of those parameters.
* Mutating Rust methods become state-passing functions returning the new state
  together with a `Result`-like value.
* `panic!` / `expect` outcomes are modelled explicitly via `Outcome.panicked`,
  never as Lean partiality.
-/

/-- Errors of the client crates (union of `CoreClientError` and the
`ClientError` variants used by the embedded code). -/
inductive Err
  | accountNotFound
  | dbAccountLimitReached
  | notEnoughCoins
  | frontierBalanceOverflow
  | invalidEpochBlock
  | invalidPayment
  | rpcCommandFailed
  | noUsableRPCs
  | invalidSeed
  | belowDustThreshold
  | invalidPassword
  | serializationError
  | invalidHex
  | workServerDisconnected
  deriving DecidableEq, Repr

/-- The error tag a single remote node returns: `nanopyrs::rpc::RpcError`,
seen by the pool only as "invalid data" versus anything else. -/
inductive RpcError
  | invalidData
  | other
  deriving DecidableEq, Repr

/-- `u128::MAX`. -/
def U128_MAX : Nat := 2 ^ 128 - 1

/-- Block types (`nanopyrs::BlockType`). -/
inductive BlockType
  | send
  | receive
  | change
  | epoch
  deriving DecidableEq, Repr

/-- `BlockType::is_epoch`. -/
def BlockType.isEpoch : BlockType → Bool
  | .epoch => true
  | _ => false

/-- A 32-byte public key rendered as a `Nat`; equality is byte-level. -/
abbrev Account := Nat

/-- The 32 raw bytes of an account's public key (`account.compressed.to_bytes()`),
as a `Nat`.  The byte encoding is injective, so it is modelled by the identity. -/
def accountBytes (a : Account) : Nat := a

/-- `nanopyrs::Block`: the fixed-shape state block record. -/
structure Block where
  block_type : BlockType
  account : Account
  previous : Nat
  representative : Account
  balance : Nat
  link : Nat
  signature : Nat
  work : Nat
  deriving DecidableEq, Repr

/-- External on-chain primitives (the nanopyrs library), passed as a black box:
block hashing, PoW verification, epoch transition rules, the genesis account,
and Ed25519 signing. -/
structure Prims where
  blockHash : Block → Nat
  checkWork : Nat → Nat → Nat → Bool
  followsEpochRules : Block → Block → Bool
  genesis : Account
  sign : Nat → Block → Nat

/-- Configuration fields consumed by the embedded code
(`CoreClientConfig` / `ClientConfig`). -/
structure Config where
  NORMAL_DUST_THRESHOLD : Nat
  DB_NUMBER_OF_ACCOUNTS_LIMIT : Nat
  RPC_INVALID_DATA_BAN_TIME : Nat
  RPC_FAILURE_BAN_TIME : Nat
  RPC_USE_BANNED_NODES_AS_BACKUP : Bool
  RPC_RETRY_LIMIT : Nat
  WORK_DIFFICULTY : Nat
  ENABLE_WORK_CACHE : Bool
  REPRESENTATIVES : List Account
  deriving Repr

namespace Frontiers

/-- `FrontierInfo { block, cached_work: Option<[u8; 8]> }`
(src/core_client/src/frontiers.rs). -/
structure FrontierInfo where
  block : Block
  cached_work : Option Nat
  deriving DecidableEq, Repr

/-- `FrontierInfo::new`. -/
def FrontierInfo.new (block : Block) (cached_work : Option Nat) : FrontierInfo :=
  ⟨block, cached_work⟩

/-- `FrontierInfo::new_unopened`: the sentinel frontier of an unopened account. -/
def newUnopened (P : Prims) (account : Account) : FrontierInfo :=
  { block :=
      { block_type := .change
        account := account
        previous := 0
        representative := P.genesis
        balance := 0
        link := 0
        signature := 0
        work := 0 }
    cached_work := none }

/-- `FrontierInfo::is_unopened`: structural equality with the sentinel. -/
def isUnopened (P : Prims) (f : FrontierInfo) : Bool :=
  decide (newUnopened P f.block.account = f)

/-- `FrontierInfo::cache_work_hash`: the hash PoW is verified against —
the account's public-key bytes for an unopened frontier, else the block hash. -/
def cacheWorkHash (P : Prims) (f : FrontierInfo) : Nat :=
  if isUnopened P f then accountBytes f.block.account else P.blockHash f.block

/-- `FrontierInfo::has_valid_work`. -/
def hasValidWork (P : Prims) (config : Config) (f : FrontierInfo) : Bool :=
  match f.cached_work with
  | some work => P.checkWork (cacheWorkHash P f) config.WORK_DIFFICULTY work
  | none => false

/-- `FrontierInfo::clear_work`. -/
def clearWork (f : FrontierInfo) : FrontierInfo :=
  { f with cached_work := none }

/-- `FrontierInfo::cache_work`: store the work, then clear it again if the
stored state does not verify at the configured difficulty. -/
def cacheWork (P : Prims) (config : Config) (f : FrontierInfo) (work : Nat) :
    FrontierInfo :=
  let f' : FrontierInfo := { f with cached_work := some work }
  if hasValidWork P config f' then f' else clearWork f'

/-- `FrontiersDB { frontiers: Vec<FrontierInfo>, frontiers_balance: u128 }`. -/
structure FrontiersDB where
  frontiers : List FrontierInfo
  frontiers_balance : Nat
  deriving DecidableEq, Repr

/-- The empty DB (`FrontiersDB::default`). -/
def FrontiersDB.default : FrontiersDB := ⟨[], 0⟩

/-- `search!(vec, Account, value)`: position of the entry for an account. -/
def searchAccount (db : FrontiersDB) (account : Account) : Option Nat :=
  db.frontiers.findIdx? (fun item => item.block.account = account)

/-- `search!(vec, Hash, value)`: position of the entry with a block hash. -/
def searchHash (P : Prims) (db : FrontiersDB) (hash : Nat) : Option Nat :=
  db.frontiers.findIdx? (fun item => P.blockHash item.block = hash)

/-- `FrontiersDB::account_frontier`. -/
def accountFrontier (db : FrontiersDB) (account : Account) : Option FrontierInfo :=
  (searchAccount db account).bind (fun i => db.frontiers.get? i)

/-- `FrontiersDB::account_balance`. -/
def accountBalance (db : FrontiersDB) (account : Account) : Option Nat :=
  (accountFrontier db account).map (fun info => info.block.balance)

/-- `FrontiersDB::_could_insert`: per-entry sanity check.  Returns the index to
replace (`some i`) or `none` for a new account; fails on a broken epoch block
or on `u128` overflow of the simulated balance sum. -/
def couldInsert (P : Prims) (db : FrontiersDB) (new : FrontierInfo) :
    Except Err (Option Nat) := do
  let block := new.block
  let index := searchAccount db new.block.account
  let total ←
    match index with
    | some i =>
        let prev := db.frontiers.getD i (newUnopened P 0)
        if block.block_type.isEpoch && !(P.followsEpochRules block prev.block) then
          throw Err.invalidEpochBlock
        else
          pure (db.frontiers_balance - prev.block.balance)
    | none => pure db.frontiers_balance
  if total + block.balance > U128_MAX then
    throw Err.frontierBalanceOverflow
  else
    pure index

/-- `FrontiersDB::_could_insert_many`: each entry is checked independently
against the same (current) state. -/
def couldInsertMany (P : Prims) (db : FrontiersDB) (new : List FrontierInfo) :
    Except Err (List (Option Nat)) :=
  new.mapM (couldInsert P db)

/-- `FrontiersDB::_add`. -/
def addFrontier (db : FrontiersDB) (new : FrontierInfo) : FrontiersDB :=
  { frontiers := db.frontiers ++ [new]
    frontiers_balance := db.frontiers_balance + new.block.balance }

/-- `FrontiersDB::_update`. -/
def updateFrontier (db : FrontiersDB) (index : Nat) (new : FrontierInfo) :
    FrontiersDB :=
  let old_balance := (db.frontiers.getD index new).block.balance
  { frontiers := db.frontiers.set index new
    frontiers_balance := db.frontiers_balance - old_balance + new.block.balance }

/-- `FrontiersDB::_add_or_update`. -/
def addOrUpdate (db : FrontiersDB) (index : Option Nat) (new : FrontierInfo) :
    FrontiersDB :=
  match index with
  | some i => updateFrontier db i new
  | none => addFrontier db new

/-- The application loop inside `FrontiersDB::insert`: each entry is re-checked
(`_could_insert`) against the *partially updated* state and then applied; an
error mid-loop returns with the earlier entries already applied. -/
def insertLoop (P : Prims) (db : FrontiersDB) :
    List FrontierInfo → FrontiersDB × Except Err Unit
  | [] => (db, .ok ())
  | info :: rest =>
    match couldInsert P db info with
    | .error e => (db, .error e)
    | .ok index => insertLoop P (addOrUpdate db index info) rest

/-- `FrontiersDB::insert`: pre-check every entry against the initial state with
`_could_insert_many`, then run the application loop. -/
def insert (P : Prims) (db : FrontiersDB) (new : List FrontierInfo) :
    FrontiersDB × Except Err Unit :=
  match couldInsertMany P db new with
  | .error e => (db, .error e)
  | .ok _ => insertLoop P db new

/-- `FrontiersDB::_remove` composed with the account search:
`FrontiersDB::remove`. -/
def remove (db : FrontiersDB) (account : Account) :
    FrontiersDB × Except Err FrontierInfo :=
  match searchAccount db account with
  | some index =>
    let removed := db.frontiers.getD index (FrontierInfo.new
      { block_type := .change, account := 0, previous := 0, representative := 0,
        balance := 0, link := 0, signature := 0, work := 0 } none)
    ({ frontiers := db.frontiers.eraseIdx index
       frontiers_balance := db.frontiers_balance - removed.block.balance },
     .ok removed)
  | none => (db, .error Err.accountNotFound)

/-- `FrontiersDB::set_account_work`: cache work on an account's frontier. -/
def setAccountWork (P : Prims) (config : Config) (db : FrontiersDB)
    (account : Account) (work : Nat) : FrontiersDB × Except Err Unit :=
  match searchAccount db account with
  | some i =>
    let info := db.frontiers.getD i (newUnopened P 0)
    ({ db with frontiers := db.frontiers.set i (cacheWork P config info work) },
     .ok ())
  | none => (db, .error Err.accountNotFound)

/-- `FrontiersDB::add_work`: cache work on the frontier with the given
(block-)hash. -/
def addWork (P : Prims) (config : Config) (db : FrontiersDB)
    (work_hash : Nat) (work : Nat) : FrontiersDB × Except Err Unit :=
  match searchHash P db work_hash with
  | some i =>
    let info := db.frontiers.getD i (newUnopened P 0)
    ({ db with frontiers := db.frontiers.set i (cacheWork P config info work) },
     .ok ())
  | none => (db, .error Err.accountNotFound)

/-- Fold that applies batch entries in order while ignoring failed checks;
used only to state which prefix of a batch got applied by `insert`. -/
def applyAll (P : Prims) (db : FrontiersDB) (l : List FrontierInfo) : FrontiersDB :=
  l.foldl
    (fun d info =>
      match couldInsert P d info with
      | .ok index => addOrUpdate d index info
      | .error _ => d)
    db

end Frontiers

namespace Wallet

/-- `GenericInfo<T> { index: u32, account: T }` (src/client/src/wallet.rs),
instantiated at on-chain accounts. -/
structure GenericInfo where
  index : Nat
  account : Account
  deriving DecidableEq, Repr

/-- `GenericInfoDB<T> { info: Vec<GenericInfo<T>> }`. -/
structure GenericInfoDB where
  info : List GenericInfo
  deriving DecidableEq, Repr

/-- `GenericInfoDB::get_info` (`search_db!(db, Account, value)`). -/
def getInfo (db : GenericInfoDB) (account : Account) : Option GenericInfo :=
  db.info.find? (fun item => item.account = account)

/-- `GenericInfoDB::contains`. -/
def contains (db : GenericInfoDB) (account : Account) : Bool :=
  (getInfo db account).isSome

/-- `GenericInfoDB::force_insert`: push unless already present; the returned
`Bool` says whether the DB already contained the account. -/
def forceInsert (db : GenericInfoDB) (info : GenericInfo) : GenericInfoDB × Bool :=
  if contains db info.account then (db, true)
  else ({ info := db.info ++ [info] }, false)

/-- `GenericInfoDB::insert`: reject when the table size has reached
`DB_NUMBER_OF_ACCOUNTS_LIMIT`, otherwise `force_insert`. -/
def insert (config : Config) (db : GenericInfoDB) (info : GenericInfo) :
    GenericInfoDB × Except Err Bool :=
  if db.info.length ≥ config.DB_NUMBER_OF_ACCOUNTS_LIMIT then
    (db, .error Err.dbAccountLimitReached)
  else
    let (db', present) := forceInsert db info
    (db', .ok present)

/-- `GenericInfoDB::remove` (`search_db!(mut db, Remove, value)`). -/
def remove (db : GenericInfoDB) (account : Account) :
    GenericInfoDB × Except Err GenericInfo :=
  match db.info.findIdx? (fun info => info.account = account) with
  | some index =>
    ({ info := db.info.eraseIdx index },
     .ok (db.info.getD index ⟨0, 0⟩))
  | none => (db, .error Err.accountNotFound)

/-- `DerivedAccountInfo { versions, secret, master_index, index, account }`,
with the external camo-versions bitset and ECDH secret modelled as `Nat`s. -/
structure DerivedAccountInfo where
  versions : Nat
  secret : Nat
  master_index : Nat
  index : Nat
  account : Account
  deriving DecidableEq, Repr

/-- `DerivedAccountDB { info: Vec<DerivedAccountInfo> }`. -/
structure DerivedAccountDB where
  info : List DerivedAccountInfo
  deriving DecidableEq, Repr

/-- `DerivedAccountDB::remove`. -/
def removeDerived (db : DerivedAccountDB) (account : Account) :
    DerivedAccountDB × Except Err DerivedAccountInfo :=
  match db.info.findIdx? (fun info => info.account = account) with
  | some index =>
    ({ info := db.info.eraseIdx index },
     .ok (db.info.getD index ⟨0, 0, 0, 0, 0⟩))
  | none => (db, .error Err.accountNotFound)

/-- `WalletDB`: the three account tables. -/
structure WalletDB where
  account_db : GenericInfoDB
  camo_account_db : GenericInfoDB
  derived_account_db : DerivedAccountDB
  deriving DecidableEq, Repr

/-- The wallet-facing state that `CoreClient::remove_account` touches. -/
structure CoreClientState where
  wallet_db : WalletDB
  frontiers_db : Frontiers.FrontiersDB
  deriving DecidableEq, Repr

/-- `CoreClient::remove_account` (src/core_client/src/client/mod.rs):
all three removals are evaluated, then the wallet-table result is propagated
with `?` and finally the frontier-removal result is returned.  Rust
`Result::or` keeps the first `Ok`, else the second result. -/
def removeAccount (client : CoreClientState) (account : Account) :
    CoreClientState × Except Err Frontiers.FrontierInfo :=
  let (account_db', r_account) := remove client.wallet_db.account_db account
  let (derived_db', r_derived) :=
    removeDerived client.wallet_db.derived_account_db account
  let (frontiers_db', r_frontier) := Frontiers.remove client.frontiers_db account
  let client' : CoreClientState :=
    { wallet_db :=
        { client.wallet_db with
            account_db := account_db'
            derived_account_db := derived_db' }
      frontiers_db := frontiers_db' }
  let wallet_result : Except Err Unit :=
    match r_account with
    | .ok _ => .ok ()
    | .error _ =>
      match r_derived with
      | .ok _ => .ok ()
      | .error e => .error e
  (client',
   match wallet_result with
   | .error e => .error e
   | .ok () => r_frontier)

end Wallet

/-- Outcome of running embedded code that may panic (`expect` / `assert!`) or
fail with an error. -/
inductive Outcome (α : Type)
  | panicked (msg : String)
  | failed (e : Err)
  | ok (a : α)
  deriving DecidableEq, Repr

deriving instance DecidableEq for Except

namespace WorkMgr

/-- The eventual value of one background PoW job.  A `WorkHandle` (a spawned
thread's join handle in the source) is modelled by the `WorkResult` it
resolves to. -/
structure WorkResult where
  work_hash : Nat
  rpc_result : Except Err Nat
  deriving DecidableEq, Repr

/-- `WorkManager { handles: HashMap<[u8; 32], WorkHandle> }`
(src/client/core/src/work/mod.rs), the map modelled as an association list. -/
structure WorkManager where
  handles : List (Nat × WorkResult)
  deriving DecidableEq, Repr

/-- The empty manager (`WorkManager::default`). -/
def WorkManager.default : WorkManager := ⟨[]⟩

/-- `handles.contains_key`. -/
def containsKey (m : WorkManager) (work_hash : Nat) : Bool :=
  (m.handles.find? (fun kv => kv.1 = work_hash)).isSome

/-- `WorkManager::request_work`: a no-op if a job for the hash is already
pending; otherwise spawn a worker (its eventual result is given by the
`spawn` oracle, standing for the thread that calls `work_generate`). -/
def requestWork (spawn : Nat → WorkResult) (m : WorkManager) (work_hash : Nat) :
    WorkManager :=
  if containsKey m work_hash then m
  else { handles := m.handles ++ [(work_hash, spawn work_hash)] }

/-- `WorkManager::wait_on`: remove the handle for the hash — panicking via
`expect` when there is none — then await and resolve it. -/
def waitOn (m : WorkManager) (work_hash : Nat) :
    Outcome (WorkResult × WorkManager) :=
  match m.handles.find? (fun kv => kv.1 = work_hash) with
  | none => .panicked "Attempted to wait on work which has not been requested"
  | some kv =>
    .ok (kv.2, { handles := m.handles.filter (fun kv' => kv'.1 ≠ work_hash) })

/-- `WorkManager::n_requests`. -/
def nRequests (m : WorkManager) : Nat := m.handles.length

end WorkMgr

namespace RpcPool

/-- The twelve JSON-RPC methods dispatched through the pool. -/
inductive RpcCommand
  | account_balance
  | account_history
  | account_info
  | account_representative
  | accounts_balances
  | accounts_frontiers
  | accounts_receivable
  | accounts_representatives
  | block_info
  | blocks_info
  | process
  | work_generate
  deriving DecidableEq, Repr

/-- `RpcCommands`: the capability matrix of one node
(src/client/src/rpc/wrapped.rs). -/
structure RpcCommands where
  account_balance : Bool
  account_history : Bool
  account_info : Bool
  account_representative : Bool
  accounts_balances : Bool
  accounts_frontiers : Bool
  accounts_receivable : Bool
  accounts_representatives : Bool
  block_info : Bool
  blocks_info : Bool
  process : Bool
  work_generate : Bool
  deriving DecidableEq, Repr

/-- `RpcCommands::supports`. -/
def supports (c : RpcCommands) : RpcCommand → Bool
  | .account_balance => c.account_balance
  | .account_history => c.account_history
  | .account_info => c.account_info
  | .account_representative => c.account_representative
  | .accounts_balances => c.accounts_balances
  | .accounts_frontiers => c.accounts_frontiers
  | .accounts_receivable => c.accounts_receivable
  | .accounts_representatives => c.accounts_representatives
  | .block_info => c.block_info
  | .blocks_info => c.blocks_info
  | .process => c.process
  | .work_generate => c.work_generate

/-- One configured node: capability matrix, ban expiration (unix seconds) and
URL (modelled as a `Nat` identifier). -/
structure Rpc where
  commands : RpcCommands
  banned_until : Nat
  url : Nat
  deriving DecidableEq, Repr

/-- `Rpc::is_banned`. -/
def isBanned (rpc : Rpc) (current_time : Nat) : Bool :=
  rpc.banned_until > current_time

/-- The sort key used by `get_usable_rpcs`:
`if rpc.is_banned(now) { rpc.banned_until } else { 0 }`. -/
def banKey (current_time : Nat) (rpc : Rpc) : Nat :=
  if isBanned rpc current_time then rpc.banned_until else 0

/-- Stable insertion into a key-sorted list: the element goes after every
element of smaller-or-equal key, matching Rust's stable `sort_by_key`. -/
def insertSorted (key : Rpc → Nat) (x : Rpc) : List Rpc → List Rpc
  | [] => [x]
  | y :: ys => if key y ≤ key x then y :: insertSorted key x ys else x :: y :: ys

/-- Stable sort by key (Rust `Vec::sort_by_key` is stable). -/
def sortByKey (key : Rpc → Nat) : List Rpc → List Rpc
  | [] => []
  | x :: xs => insertSorted key x (sortByKey key xs)

/-- `RpcManager::get_usable_rpcs` (src/client/src/rpc/manager.rs).  The input
list is the freshly shuffled clone of `config.RPCS` (the shuffle's randomness
is external); it is stable-sorted so unbanned nodes precede banned ones,
filtered by capability, and — unless banned nodes serve as backup — filtered
to unbanned nodes. -/
def getUsableRpcs (config : Config) (command : RpcCommand) (current_time : Nat)
    (shuffled : List Rpc) : List Rpc :=
  let sorted := sortByKey (banKey current_time) shuffled
  let capable := sorted.filter (fun rpc => supports rpc.commands command)
  match config.RPC_USE_BANNED_NODES_AS_BACKUP with
  | true => capable
  | false => capable.filter (fun rpc => !isBanned rpc current_time)

/-- One failure record `{ err, url }` appended by the dispatch loop. -/
structure RpcFailure where
  err : RpcError
  url : Nat
  deriving DecidableEq, Repr

/-- The inner candidate loop of a `wrap_rpc_methods!` method: try each
candidate in order, accumulating `{error, url}` failures, returning on the
first success the item together with the failures *of this pass*. -/
def runPass {α : Type} (call : Rpc → Except RpcError α) :
    List Rpc → List RpcFailure → Option (α × List RpcFailure)
  | [], _ => none
  | rpc :: rest, failures =>
    match call rpc with
    | .ok item => some (item, failures)
    | .error e => runPass call rest (failures ++ [⟨e, rpc.url⟩])

/-- The retry loop of a `wrap_rpc_methods!` method: up to the given number of
passes, each starting with an *empty* failure list over a freshly selected
candidate list; `RpcCommandFailed` when all passes exhaust. -/
def dispatchAux {α : Type} (config : Config) (command : RpcCommand)
    (current_time : Nat) (shuffles : Nat → List Rpc)
    (call : Nat → Rpc → Except RpcError α) (pass : Nat) :
    Nat → Except Err (α × List RpcFailure)
  | 0 => .error Err.rpcCommandFailed
  | remaining + 1 =>
    match runPass (call pass)
        (getUsableRpcs config command current_time (shuffles pass)) [] with
    | some success => .ok success
    | none =>
      dispatchAux config command current_time shuffles call (pass + 1) remaining

/-- The error tag of a failed call; the `ok` case is never reached where this
is used. -/
def errValue {α : Type} : Except RpcError α → RpcError
  | .error e => e
  | .ok _ => RpcError.other

/-- A public RPC-pool method generated by `wrap_rpc_methods!`
(src/client/src/rpc/manager.rs lines 11–50): `shuffles pass` is the shuffled
snapshot of `config.RPCS` drawn at pass `pass`, and `call pass rpc` the
outcome of that node's request during that pass. -/
def rpcDispatch {α : Type} (config : Config) (command : RpcCommand)
    (current_time : Nat) (shuffles : Nat → List Rpc)
    (call : Nat → Rpc → Except RpcError α) : Except Err (α × List RpcFailure) :=
  dispatchAux config command current_time shuffles call 0 config.RPC_RETRY_LIMIT

end RpcPool

/-- `nanopyrs::rpc::Receivable { recipient, block_hash, amount }`. -/
structure Receivable where
  recipient : Account
  block_hash : Nat
  amount : Nat
  deriving DecidableEq, Repr

namespace Storage

/-- Big-endian hex encoding of a byte sequence, one byte to two nibbles
(the `hex::encode` calls in src/client/src/storage.rs, with hex digits kept
as numbers). -/
def hexEncode (bytes : List Nat) : List Nat :=
  bytes.flatMap (fun b => [b / 16, b % 16])

/-- `hex::decode`: pairs of nibbles back to bytes; fails on an odd length or
an out-of-range digit. -/
def hexDecode : List Nat → Option (List Nat)
  | [] => some []
  | [_] => none
  | hi :: lo :: rest =>
    if hi < 16 && lo < 16 then
      (hexDecode rest).map (fun bytes => (hi * 16 + lo) :: bytes)
    else
      none

/-- `WalletData { seed, wallet_db, frontiers_db, cached_receivable,
camo_history }` (src/client/src/storage.rs); the seed bytes and the camo
transaction summaries are opaque to the storage layer. -/
structure WalletData where
  seed : Nat
  wallet_db : Wallet.WalletDB
  frontiers_db : Frontiers.FrontiersDB
  cached_receivable : List (Nat × Receivable)
  camo_history : List Nat
  deriving DecidableEq, Repr

/-- The external cryptography the storage code composes, as a black box:
Argon2id key derivation, AES-256-GCM seal/open, and the bincode
serialization of `WalletData`. -/
structure CryptoPrims where
  kdf : List Nat → List Nat → List Nat
  aeadSeal : List Nat → List Nat → List Nat → List Nat
  aeadOpen : List Nat → List Nat → List Nat → Option (List Nat)
  ser : WalletData → List Nat
  deser : List Nat → Option WalletData

/-- `EncryptedWallet { name, salt, nonce, data }`, the three payloads stored
hex-encoded. -/
structure EncryptedWallet where
  name : Nat
  salt : List Nat
  nonce : List Nat
  data : List Nat
  deriving DecidableEq, Repr

/-- `WalletData::encrypt`: draw `salt`/`nonce` (passed explicitly here as the
randomness), derive the file key with the slow hash, serialize, seal, and
hex-encode the persisted fields. -/
def encrypt (C : CryptoPrims) (wallet : WalletData) (id : Nat)
    (password : List Nat) (salt nonce : List Nat) : EncryptedWallet :=
  let key := C.kdf password salt
  let data := C.ser wallet
  let encrypted := C.aeadSeal key nonce data
  { name := id
    salt := hexEncode salt
    nonce := hexEncode nonce
    data := hexEncode encrypted }

/-- `EncryptedWallet::decrypt`: hex-decode the fields, re-derive the key, open
the ciphertext — an opening failure surfaces as `InvalidPassword` — and
deserialize. -/
def decrypt (C : CryptoPrims) (wallet : EncryptedWallet) (password : List Nat) :
    Except Err WalletData :=
  match hexDecode wallet.salt with
  | none => .error Err.invalidHex
  | some salt =>
    match hexDecode wallet.nonce with
    | none => .error Err.invalidHex
    | some nonce =>
      let key := C.kdf password salt
      match hexDecode wallet.data with
      | none => .error Err.invalidHex
      | some data =>
        match C.aeadOpen key nonce data with
        | none => .error Err.invalidPassword
        | some plaintext =>
          match C.deser plaintext with
          | none => .error Err.serializationError
          | some decoded => .ok decoded

end Storage

namespace Engine

open Frontiers

/-- Version-1 notification data recovered from `sender_ecdh`: the on-chain
notification recipient and the ECDH public payload carried in the
`representative` field. -/
structure NotificationV1 where
  recipient : Account
  representative_payload : Account
  deriving DecidableEq, Repr

/-- The stealth-address math of one fixed camo recipient (nanopyrs
`CamoAccount`), external to the repository: the sender-side ECDH (fed the
sender key and frontier hash), one-time account derivation, and the
recipient's signer account. -/
structure CamoCtx where
  senderEcdh : Nat → Nat → Nat × NotificationV1
  deriveAccount : Nat → Account
  signerAccount : Account

/-- Everything the embedded engine code reads from the client and the outside
world: primitives, config, the frontier DB, key lookup
(`wallet_db.find_key(seed, ·)`), `key.to_account()`, the random
representative pick, the work service's result for a work hash, and whether a
`process` RPC succeeds. -/
structure Env where
  P : Prims
  camo : CamoCtx
  config : Config
  frontiers_db : FrontiersDB
  findKey : Account → Option Nat
  keyAccount : Nat → Account
  pick : List Account → Account
  workFor : Nat → Nat
  processOk : Block → Bool

/-- `choose_representatives` (src/core_client/src/client/mod.rs): an explicit
override wins; else keep the current representative when configured; else pick
one at random from the configured set. -/
def chooseRepresentatives (env : Env) (current : Account)
    (option : Option Account) : Account :=
  match option with
  | some rep => rep
  | none =>
    if env.config.REPRESENTATIVES.contains current then current
    else env.pick env.config.REPRESENTATIVES

/-- `WalletDB::sign_block`: recover the key for the block's account and attach
the signature. -/
def signBlock (env : Env) (block : Block) : Except Err Block :=
  match env.findKey block.account with
  | none => .error Err.accountNotFound
  | some key => .ok { block with signature := env.P.sign key block }

/-- `sender_ecdh` (the helper in both revisions of client/send.rs): the sender
key's frontier hash is mixed into the recipient's ECDH. -/
def senderEcdhOf (env : Env) (sender_key : Nat) :
    Except Err (Nat × NotificationV1) :=
  match accountFrontier env.frontiers_db (env.keyAccount sender_key) with
  | none => .error Err.accountNotFound
  | some frontier => .ok (env.camo.senderEcdh sender_key (env.P.blockHash frontier.block))

/-- `Payment { sender, amount, recipient, new_representative }`. -/
structure Payment where
  sender : Account
  amount : Nat
  recipient : Account
  new_representative : Option Account
  deriving DecidableEq, Repr

/-- `CamoPayment` minus the camo recipient, which lives in `CamoCtx`. -/
structure CamoPayment where
  sender : Account
  sender_amount : Nat
  notifier : Account
  notification_amount : Nat
  deriving DecidableEq, Repr

/-- One observable RPC interaction of the engine: a `process` call publishing
a block, or a work-cache request handed to the work service. -/
inductive RpcEvent
  | processCall (block : Block)
  | workRequest (work_hash : Nat)
  deriving DecidableEq, Repr

/-- `create_send_block` of the core revision
(src/client/core/src/client/send.rs lines 51–92), including its
`sender == recipient` guard. -/
def createSendBlockCore (env : Env) (payment : Payment)
    (sender_frontier : FrontierInfo) : Except Err Block := do
  if payment.sender = payment.recipient then
    throw Err.invalidPayment
  let work := sender_frontier.cached_work.getD 0
  if payment.amount > sender_frontier.block.balance then
    throw Err.notEnoughCoins
  let previous :=
    if isUnopened env.P sender_frontier then 0
    else env.P.blockHash sender_frontier.block
  let representative :=
    chooseRepresentatives env sender_frontier.block.representative
      payment.new_representative
  signBlock env
    { block_type := .send
      account := payment.sender
      previous
      representative
      balance := sender_frontier.block.balance - payment.amount
      link := accountBytes payment.recipient
      signature := 0
      work }

/-- `create_send_block` of the client revision
(src/client/src/client/send.rs lines 51–88); identical except that it lacks
the `sender == recipient` guard. -/
def createSendBlockClient (env : Env) (payment : Payment)
    (sender_frontier : FrontierInfo) : Except Err Block := do
  let work := sender_frontier.cached_work.getD 0
  if payment.amount > sender_frontier.block.balance then
    throw Err.notEnoughCoins
  let previous :=
    if isUnopened env.P sender_frontier then 0
    else env.P.blockHash sender_frontier.block
  let representative :=
    chooseRepresentatives env sender_frontier.block.representative
      payment.new_representative
  signBlock env
    { block_type := .send
      account := payment.sender
      previous
      representative
      balance := sender_frontier.block.balance - payment.amount
      link := accountBytes payment.recipient
      signature := 0
      work }

/-- `ClientRpc::publish` (src/core_client/src/rpc/client.rs): issue the
`process` RPC for the block — recorded as a trace event — and on success
return the block as the account's new frontier without cached work. -/
def publish (env : Env) (block : Block) :
    Except Err FrontierInfo × List RpcEvent :=
  (if env.processOk block then .ok (FrontierInfo.new block none)
   else .error Err.rpcCommandFailed,
   [RpcEvent.processCall block])

/-- `ClientRpc::get_work`: the frontier's cached work when present, otherwise
the work service's result for the frontier's work hash. -/
def getWork (env : Env) (frontier : FrontierInfo) : Nat :=
  frontier.cached_work.getD (env.workFor (cacheWorkHash env.P frontier))

/-- `ClientRpc::get_work_and_publish_unsynced`: fetch PoW for the block (via
the frontier), attach it, publish. -/
def getWorkAndPublishUnsynced (env : Env) (frontier : FrontierInfo)
    (block : Block) : Except Err FrontierInfo × List RpcEvent :=
  publish env { block with work := getWork env frontier }

/-- `ClientRpc::auto_publish_unsynced`: publish, then — with the work cache
enabled — request PoW keyed on the just-published block's hash for the *next*
block. -/
def autoPublishUnsynced (env : Env) (frontier : FrontierInfo) (block : Block) :
    Except Err FrontierInfo × List RpcEvent :=
  let block_hash := env.P.blockHash block
  let (result, events) := getWorkAndPublishUnsynced env frontier block
  (result,
   events ++ if env.config.ENABLE_WORK_CACHE then [RpcEvent.workRequest block_hash] else [])

/-- `_send_camo_same` of the core revision
(src/client/core/src/client/send.rs lines 140–205): both blocks are built
against the sender's current frontier, then the notify block is published
first and the masked send block second. -/
def sendCamoSameCore (env : Env) (payment : CamoPayment) :
    Outcome (List FrontierInfo) × List RpcEvent :=
  if payment.sender ≠ payment.notifier then
    (.panicked "broken send_camo code", [])
  else
    match accountFrontier env.frontiers_db payment.sender with
    | none => (.failed Err.accountNotFound, [])
    | some sender_frontier =>
      let total_amount := payment.notification_amount + payment.sender_amount
      if sender_frontier.block.balance < total_amount then
        (.failed Err.notEnoughCoins, [])
      else
        match env.findKey payment.sender with
        | none => (.failed Err.accountNotFound, [])
        | some sender_key =>
          match senderEcdhOf env sender_key with
          | .error e => (.failed e, [])
          | .ok (shared_secret, notification) =>
            let derived := env.camo.deriveAccount shared_secret
            match createSendBlockCore env
                { sender := payment.sender
                  amount := payment.sender_amount
                  recipient := derived
                  new_representative := none } sender_frontier with
            | .error e => (.failed e, [])
            | .ok send_block =>
              match createSendBlockCore env
                  { sender := payment.notifier
                    amount := payment.notification_amount
                    recipient := notification.recipient
                    new_representative := some notification.representative_payload }
                  sender_frontier with
              | .error e => (.failed e, [])
              | .ok notify_block =>
                match autoPublishUnsynced env sender_frontier notify_block with
                | (.error e, events₁) => (.failed e, events₁)
                | (.ok sender_frontier₁, events₁) =>
                  match autoPublishUnsynced env sender_frontier₁ send_block with
                  | (.error e, events₂) => (.failed e, events₁ ++ events₂)
                  | (.ok sender_frontier₂, events₂) =>
                    (.ok [sender_frontier₂], events₁ ++ events₂)

/-- `_send_camo_same` of the client revision
(src/client/src/client/send.rs lines 128–183): the masked send block is built
against the current frontier and published first; the notify block is then
built against the returned frontier and published second. -/
def sendCamoSameClient (env : Env) (payment : CamoPayment) :
    Outcome (List FrontierInfo) × List RpcEvent :=
  if payment.sender ≠ payment.notifier then
    (.panicked "broken send_camo code", [])
  else
    match accountFrontier env.frontiers_db payment.sender with
    | none => (.failed Err.accountNotFound, [])
    | some sender_frontier =>
      match env.findKey payment.sender with
      | none => (.failed Err.accountNotFound, [])
      | some sender_key =>
        match senderEcdhOf env sender_key with
        | .error e => (.failed e, [])
        | .ok (shared_secret, notification) =>
          let derived := env.camo.deriveAccount shared_secret
          match createSendBlockClient env
              { sender := payment.sender
                amount := payment.sender_amount
                recipient := derived
                new_representative := none } sender_frontier with
          | .error e => (.failed e, [])
          | .ok send_block =>
            match autoPublishUnsynced env sender_frontier send_block with
            | (.error e, events₁) => (.failed e, events₁)
            | (.ok sender_frontier₁, events₁) =>
              match createSendBlockClient env
                  { sender := payment.notifier
                    amount := payment.notification_amount
                    recipient := notification.recipient
                    new_representative := some notification.representative_payload }
                  sender_frontier₁ with
              | .error e => (.failed e, events₁)
              | .ok notification_block =>
                match autoPublishUnsynced env sender_frontier₁ notification_block with
                | (.error e, events₂) => (.failed e, events₁ ++ events₂)
                | (.ok sender_frontier₂, events₂) =>
                  (.ok [sender_frontier₂], events₁ ++ events₂)

end Engine

namespace Recv

open Frontiers Engine

/-- `create_receive_block` (src/client/core/src/client/receive.rs lines
26–68): reject on `u128` balance overflow, chain on the frontier (or on
`previous = 0` for an unopened account), add the amount, link the sending
block's hash, and sign. -/
def createReceiveBlock (env : Env) (receivable : Receivable)
    (recipient_frontier : FrontierInfo) (new_representative : Option Account) :
    Except Err Block := do
  let work := recipient_frontier.cached_work.getD 0
  if recipient_frontier.block.balance + receivable.amount > U128_MAX then
    throw Err.frontierBalanceOverflow
  let previous :=
    if isUnopened env.P recipient_frontier then 0
    else env.P.blockHash recipient_frontier.block
  let representative :=
    chooseRepresentatives env recipient_frontier.block.representative
      new_representative
  signBlock env
    { block_type := .receive
      account := receivable.recipient
      previous
      representative
      balance := recipient_frontier.block.balance + receivable.amount
      link := receivable.block_hash
      signature := 0
      work }

/-- `receive_block_unsynced`: build the receive block against the supplied
(shadow) frontier and auto-publish it. -/
def receiveBlockUnsynced (env : Env) (receivable : Receivable)
    (frontier : FrontierInfo) : Except Err FrontierInfo × List RpcEvent :=
  match createReceiveBlock env receivable frontier none with
  | .error e => (.error e, [])
  | .ok block => autoPublishUnsynced env frontier block

/-- Overwriting insert into the shadow `HashMap<Account, FrontierInfo>`,
modelled as an association list. -/
def mapInsert (m : List (Account × FrontierInfo)) (account : Account)
    (info : FrontierInfo) : List (Account × FrontierInfo) :=
  if (m.find? (fun kv => kv.1 = account)).isSome then
    m.map (fun kv => if kv.1 = account then (account, info) else kv)
  else
    m ++ [(account, info)]

/-- `ReceiveFailure { err, unreceived }`. -/
structure ReceiveFailureData where
  err : Err
  unreceived : List Receivable
  deriving DecidableEq, Repr

/-- The observable part of `ReceiveResult`: the shadow frontiers that were
advanced, and the failure report. -/
structure ReceiveResultData where
  new_frontiers : List FrontierInfo
  failures : Option ReceiveFailureData
  deriving DecidableEq, Repr

/-- The running state of the main loop of `receive`. -/
structure RecvState where
  frontiers : List (Account × FrontierInfo)
  err : Option Err
  successfully_received : List Nat
  events : List RpcEvent

/-- The main loop of `receive` (src/client/core/src/client/receive.rs lines
164–188): each receivable's shadow frontier is looked up with
`expect("Failed to catch invalid receivable transaction")` — a panic when the
recipient never got a shadow entry — then received and folded back into the
shadow map. -/
def receiveLoop (env : Env) : List Receivable → RecvState → Outcome RecvState
  | [], st => .ok st
  | receivable :: rest, st =>
    match st.frontiers.find? (fun kv => kv.1 = receivable.recipient) with
    | none => .panicked "Failed to catch invalid receivable transaction"
    | some kv =>
      match receiveBlockUnsynced env receivable kv.2 with
      | (.ok info, events) =>
        receiveLoop env rest
          { frontiers := mapInsert st.frontiers info.block.account info
            err := st.err
            successfully_received := st.successfully_received ++ [info.block.link]
            events := st.events ++ events }
      | (.error e, events) =>
        receiveLoop env rest { st with err := some e, events := st.events ++ events }

/-- `receive` (src/client/core/src/client/receive.rs lines 134–216): build the
shadow map from the FrontierDB — a receivable whose recipient has no frontier
is only logged, not excluded — then run the loop, compute the unreceived
list, and `assert!` its consistency with the recorded error. -/
def receive (env : Env) (receivables : List Receivable) :
    Outcome ReceiveResultData × List RpcEvent :=
  let initial : List (Account × FrontierInfo) :=
    receivables.foldl
      (fun m receivable =>
        match accountFrontier env.frontiers_db receivable.recipient with
        | some frontier => mapInsert m receivable.recipient frontier
        | none => m)
      []
  match receiveLoop env receivables ⟨initial, none, [], []⟩ with
  | .panicked msg => (.panicked msg, [])
  | .failed e => (.failed e, [])
  | .ok st =>
    let unreceived :=
      receivables.filter
        (fun receivable => !st.successfully_received.contains receivable.block_hash)
    if (st.err.isNone == unreceived.isEmpty) = false then
      (.panicked "broken receive code", st.events)
    else
      (.ok
        { new_frontiers := st.frontiers.map (fun kv => kv.2)
          failures := st.err.map (fun e => ⟨e, unreceived⟩) },
       st.events)

end Recv

namespace Fixtures

/-- A capability matrix supporting every method. -/
def allCommands : RpcPool.RpcCommands :=
  ⟨true, true, true, true, true, true, true, true, true, true, true, true⟩

/-- Concrete stand-ins for the external nanopyrs primitives, used to evaluate
the embedding on closed inputs. -/
def toyPrims : Prims where
  blockHash := fun b => b.balance * 100 + 7
  checkWork := fun h _ w => decide ((h + w) % 2 = 0)
  followsEpochRules := fun _ _ => true
  genesis := 99
  sign := fun _ _ => 3

/-- A small concrete configuration. -/
def toyConfig : Config where
  NORMAL_DUST_THRESHOLD := 0
  DB_NUMBER_OF_ACCOUNTS_LIMIT := 2
  RPC_INVALID_DATA_BAN_TIME := 10
  RPC_FAILURE_BAN_TIME := 5
  RPC_USE_BANNED_NODES_AS_BACKUP := true
  RPC_RETRY_LIMIT := 2
  WORK_DIFFICULTY := 7
  ENABLE_WORK_CACHE := true
  REPRESENTATIVES := [99]

/-- A frontier whose balance is `u128::MAX`. -/
def bigFrontier : Frontiers.FrontierInfo :=
  ⟨⟨.receive, 1, 0, 99, U128_MAX, 0, 0, 0⟩, none⟩

/-- A frontier of balance 1 on a second account. -/
def oneFrontier : Frontiers.FrontierInfo :=
  ⟨⟨.receive, 2, 0, 99, 1, 0, 0, 0⟩, none⟩

/-- A database already holding the `u128::MAX` frontier. -/
def fullDb : Frontiers.FrontiersDB := ⟨[bigFrontier], U128_MAX⟩

/-- A frontier for account 5 with balance 4 and no cached work. -/
def c4Frontier : Frontiers.FrontierInfo :=
  ⟨⟨.receive, 5, 0, 99, 4, 0, 0, 0⟩, none⟩

/-- A database holding only `c4Frontier`. -/
def c4Db : Frontiers.FrontiersDB := ⟨[c4Frontier], 4⟩

/-- One fully capable unbanned node. -/
def c6Rpc : RpcPool.Rpc := ⟨allCommands, 0, 1⟩

/-- One node per pass, the shuffle being trivial. -/
def c6Shuffles : Nat → List RpcPool.Rpc := fun _ => [c6Rpc]

/-- Call outcomes: the node fails on pass 0 and succeeds on pass 1. -/
def c6Call : Nat → RpcPool.Rpc → Except RpcError Nat :=
  fun pass _ => if pass = 0 then .error .other else .ok 42

/-- Call outcomes where every call fails. -/
def c6FailCall : Nat → RpcPool.Rpc → Except RpcError Nat :=
  fun _ _ => .error .other

/-- Wallet-table config capped at one account. -/
def c7Config : Config := { toyConfig with DB_NUMBER_OF_ACCOUNTS_LIMIT := 1 }

/-- A one-entry wallet table holding account 5 at index 0. -/
def c7Db : Wallet.GenericInfoDB := ⟨[⟨0, 5⟩]⟩

/-- A concrete `WalletData` snapshot. -/
def wdFix : Storage.WalletData :=
  ⟨0, ⟨⟨[]⟩, ⟨[]⟩, ⟨[]⟩⟩, Frontiers.FrontiersDB.default, [], []⟩

/-- Concrete stand-ins for Argon2id / AES-256-GCM / bincode satisfying their
contracts on the witness inputs. -/
def toyCrypto : Storage.CryptoPrims where
  kdf := fun password salt => password ++ salt
  aeadSeal := fun _ _ data => data
  aeadOpen := fun key _ data => if key = [1, 3] then some data else none
  ser := fun _ => [7]
  deser := fun bytes => if bytes = [7] then some wdFix else none

/-- A concrete engine environment: one opened frontier (account 5, balance
10), the wallet key 42 for account 5, a camo recipient whose ECDH yields
secret 55, notification account 200 and payload 201, one-time account 77. -/
def camoEnv : Engine.Env where
  P := toyPrims
  camo := ⟨fun _ _ => (55, ⟨200, 201⟩), fun _ => 77, 200⟩
  config := toyConfig
  frontiers_db := ⟨[⟨⟨.receive, 5, 0, 99, 10, 0, 0, 0⟩, none⟩], 10⟩
  findKey := fun account => if account = 5 then some 42 else none
  keyAccount := fun key => if key = 42 then 5 else 0
  pick := fun reps => reps.headD 0
  workFor := fun _ => 6
  processOk := fun _ => true

/-- A same-account camo payment: sender = notifier = 5, masked amount 2,
notification amount 1. -/
def camoPay : Engine.CamoPayment := ⟨5, 2, 5, 1⟩

/-- A client whose wallet tables are empty but whose FrontiersDB holds a
frontier for account 3. -/
def c10Client : Wallet.CoreClientState :=
  ⟨⟨⟨[]⟩, ⟨[]⟩, ⟨[]⟩⟩, ⟨[⟨⟨.receive, 3, 0, 99, 8, 0, 0, 0⟩, none⟩], 8⟩⟩

end Fixtures

/-! Helper lemmas shared by the claim theorems. -/

theorem findIdx?_none_of_find?_none {α : Type} (p : α → Bool) :
    ∀ (l : List α) (i : Nat), l.find? p = none → l.findIdx? p i = none := by
  intro l
  induction l with
  | nil => intro i _; rfl
  | cons a t ih =>
    intro i h
    cases hp : p a with
    | true => rw [List.find?_cons, hp] at h; exact absurd h (by simp)
    | false =>
      rw [List.find?_cons, hp] at h
      rw [List.findIdx?_cons, hp]
      simpa using ih (i + 1) h

theorem findIdx?_some_bounds {α : Type} (p : α → Bool) :
    ∀ (l : List α) (i j : Nat), l.findIdx? p i = some j → i ≤ j ∧ j - i < l.length := by
  intro l
  induction l with
  | nil => intro i j h; exact absurd h (by simp [List.findIdx?])
  | cons a t ih =>
    intro i j h
    cases hp : p a with
    | true =>
      rw [List.findIdx?_cons, hp] at h
      simp only [if_true] at h
      cases h
      exact ⟨Nat.le_refl _, by simp⟩
    | false =>
      rw [List.findIdx?_cons, hp] at h
      simp only [Bool.false_eq_true, if_false] at h
      have := ih (i + 1) j h
      exact ⟨by omega, by simp; omega⟩

theorem hexDecode_hexEncode :
    ∀ l : List Nat, (∀ b ∈ l, b < 256) →
      Storage.hexDecode (Storage.hexEncode l) = some l := by
  intro l
  induction l with
  | nil => intro _; rfl
  | cons b t ih =>
    intro h
    have hb : b < 256 := h b (by simp)
    have hhi : b / 16 < 16 := by omega
    have hlo : b % 16 < 16 := Nat.mod_lt _ (by norm_num)
    have henc : Storage.hexEncode (b :: t) = b / 16 :: b % 16 :: Storage.hexEncode t := by
      simp [Storage.hexEncode]
    rw [henc, Storage.hexDecode, if_pos (by simp [hhi, hlo]),
      ih (fun x hx => h x (by simp [hx]))]
    have hval : b / 16 * 16 + b % 16 = b := by omega
    simp [hval]

theorem cacheWork_cases (P : Prims) (config : Config) (f : Frontiers.FrontierInfo)
    (w : Nat) :
    (Frontiers.cacheWork P config f w).cached_work = none ∨
      ((Frontiers.cacheWork P config f w).cached_work = some w ∧
        P.checkWork (Frontiers.cacheWorkHash P (Frontiers.cacheWork P config f w))
          config.WORK_DIFFICULTY w = true) := by
  unfold Frontiers.cacheWork
  by_cases h : Frontiers.hasValidWork P config { f with cached_work := some w } = true
  · right
    rw [if_pos h]
    refine ⟨rfl, ?_⟩
    unfold Frontiers.hasValidWork at h
    simpa using h
  · left
    rw [if_neg h]
    rfl

theorem applyAll_cons (P : Prims) (db : Frontiers.FrontiersDB)
    (info : Frontiers.FrontierInfo) (l : List Frontiers.FrontierInfo) :
    Frontiers.applyAll P db (info :: l) =
      Frontiers.applyAll P
        (match Frontiers.couldInsert P db info with
         | .ok index => Frontiers.addOrUpdate db index info
         | .error _ => db) l := rfl

theorem insertLoop_applied_front (P : Prims) (l : List Frontiers.FrontierInfo) :
    ∀ db : Frontiers.FrontiersDB,
      ∃ k, k ≤ l.length ∧
        (Frontiers.insertLoop P db l).1 = Frontiers.applyAll P db (l.take k) ∧
        ((Frontiers.insertLoop P db l).2 = .ok () → k = l.length) := by
  induction l with
  | nil =>
    intro db
    exact ⟨0, by simp, rfl, fun _ => rfl⟩
  | cons info rest ih =>
    intro db
    cases h : Frontiers.couldInsert P db info with
    | error e =>
      refine ⟨0, by simp, ?_, ?_⟩
      · simp [Frontiers.insertLoop, h, Frontiers.applyAll]
      · simp [Frontiers.insertLoop, h]
    | ok index =>
      obtain ⟨k, hk, h1, h2⟩ := ih (Frontiers.addOrUpdate db index info)
      refine ⟨k + 1, by simpa using hk, ?_, ?_⟩
      · rw [List.take_succ_cons, applyAll_cons, h]
        simpa [Frontiers.insertLoop, h] using h1
      · intro hok
        have : k = rest.length := h2 (by simpa [Frontiers.insertLoop, h] using hok)
        simp [this]

theorem runPass_none_of_all_fail {α : Type} (call : RpcPool.Rpc → Except RpcError α) :
    ∀ (l : List RpcPool.Rpc) (acc : List RpcPool.RpcFailure),
      (∀ rpc ∈ l, ∀ x, call rpc ≠ .ok x) → RpcPool.runPass call l acc = none := by
  intro l
  induction l with
  | nil => intro acc _; rfl
  | cons rpc rest ih =>
    intro acc h
    cases hc : call rpc with
    | ok x => exact absurd hc (h rpc (by simp) x)
    | error e =>
      simp only [RpcPool.runPass, hc]
      exact ih _ (fun r hr x => h r (by simp [hr]) x)

theorem all_fail_of_runPass_none {α : Type} (call : RpcPool.Rpc → Except RpcError α) :
    ∀ (l : List RpcPool.Rpc) (acc : List RpcPool.RpcFailure),
      RpcPool.runPass call l acc = none → ∀ rpc ∈ l, ∀ x, call rpc ≠ .ok x := by
  intro l
  induction l with
  | nil => intro acc _ rpc hr; exact absurd hr (by simp)
  | cons rpc rest ih =>
    intro acc h r hr x hx
    cases hc : call rpc with
    | ok y => simp [RpcPool.runPass, hc] at h
    | error e =>
      simp only [RpcPool.runPass, hc] at h
      rcases List.mem_cons.mp hr with rfl | hr'
      · rw [hc] at hx; exact Except.noConfusion hx
      · exact ih _ h r hr' x hx

theorem runPass_some_split {α : Type} (call : RpcPool.Rpc → Except RpcError α) :
    ∀ (l : List RpcPool.Rpc) (acc : List RpcPool.RpcFailure) (item : α)
      (fs : List RpcPool.RpcFailure),
      RpcPool.runPass call l acc = some (item, fs) →
      ∃ pre rpc post, l = pre ++ rpc :: post ∧
        (∀ r ∈ pre, ∀ x, call r ≠ .ok x) ∧
        call rpc = .ok item ∧
        fs = acc ++ pre.map (fun r => ⟨RpcPool.errValue (call r), r.url⟩) := by
  intro l
  induction l with
  | nil => intro acc item fs h; exact absurd h (by simp [RpcPool.runPass])
  | cons rpc rest ih =>
    intro acc item fs h
    cases hc : call rpc with
    | ok x =>
      simp only [RpcPool.runPass, hc] at h
      obtain ⟨hx, hfs⟩ := Prod.mk.injEq .. ▸ Option.some.injEq .. ▸ h
      refine ⟨[], rpc, rest, rfl, by simp, ?_, by simp [hfs.symm]⟩
      rw [hc, hx]
    | error e =>
      simp only [RpcPool.runPass, hc] at h
      obtain ⟨pre, r, post, hsplit, hpre, hcall, hfs⟩ := ih _ item fs h
      refine ⟨rpc :: pre, r, post, by simp [hsplit], ?_, hcall, ?_⟩
      · intro s hs x hx
        rcases List.mem_cons.mp hs with rfl | hs'
        · rw [hc] at hx; exact Except.noConfusion hx
        · exact hpre s hs' x hx
      · rw [hfs]
        simp [hc, RpcPool.errValue]

theorem dispatchAux_all_fail {α : Type} (config : Config) (command : RpcPool.RpcCommand)
    (now : Nat) (shuffles : Nat → List RpcPool.Rpc)
    (call : Nat → RpcPool.Rpc → Except RpcError α) :
    ∀ (remaining pass : Nat),
      (∀ q, pass ≤ q → q < pass + remaining →
        ∀ rpc ∈ RpcPool.getUsableRpcs config command now (shuffles q),
          ∀ x, call q rpc ≠ .ok x) →
      RpcPool.dispatchAux config command now shuffles call pass remaining =
        .error Err.rpcCommandFailed := by
  intro remaining
  induction remaining with
  | zero => intro pass _; rfl
  | succ n ih =>
    intro pass h
    have hnone :=
      runPass_none_of_all_fail (call pass)
        (RpcPool.getUsableRpcs config command now (shuffles pass)) []
        (fun r hr x => h pass (Nat.le_refl _) (by omega) r hr x)
    simp only [RpcPool.dispatchAux, hnone]
    exact ih (pass + 1) (fun q hq1 hq2 => h q (by omega) (by omega))

theorem dispatchAux_ok_split {α : Type} (config : Config) (command : RpcPool.RpcCommand)
    (now : Nat) (shuffles : Nat → List RpcPool.Rpc)
    (call : Nat → RpcPool.Rpc → Except RpcError α) :
    ∀ (remaining pass : Nat) (item : α) (fs : List RpcPool.RpcFailure),
      RpcPool.dispatchAux config command now shuffles call pass remaining =
        .ok (item, fs) →
      ∃ d, d < remaining ∧
        (∀ q, pass ≤ q → q < pass + d →
          ∀ rpc ∈ RpcPool.getUsableRpcs config command now (shuffles q),
            ∀ x, call q rpc ≠ .ok x) ∧
        RpcPool.runPass (call (pass + d))
          (RpcPool.getUsableRpcs config command now (shuffles (pass + d))) [] =
          some (item, fs) := by
  intro remaining
  induction remaining with
  | zero => intro pass item fs h; exact absurd h (by simp [RpcPool.dispatchAux])
  | succ n ih =>
    intro pass item fs h
    cases hr : RpcPool.runPass (call pass)
        (RpcPool.getUsableRpcs config command now (shuffles pass)) [] with
    | some s =>
      simp only [RpcPool.dispatchAux, hr] at h
      cases h
      exact ⟨0, by omega, fun q hq1 hq2 => absurd hq2 (by omega), by simpa using hr⟩
    | none =>
      simp only [RpcPool.dispatchAux, hr] at h
      obtain ⟨d, hd, hfail, hrun⟩ := ih (pass + 1) item fs h
      refine ⟨d + 1, by omega, ?_, ?_⟩
      · intro q hq1 hq2 rpc hrpc x hx
        rcases Nat.lt_or_ge q (pass + 1) with hlt | hge
        · have : q = pass := by omega
          subst this
          exact all_fail_of_runPass_none (call q) _ [] hr rpc hrpc x hx
        · exact hfail q hge (by omega) rpc hrpc x hx
      · have harith : pass + (d + 1) = pass + 1 + d := by omega
        rw [harith]
        exact hrun

/-! Claim theorems. -/

/-- C3 counterexample: the batch `[balance u128::MAX, balance 1]` on an empty
database passes the pre-check — which checks each entry independently against
the initial state rather than simulating the whole batch together — and then
fails during application, returning an error with the first entry already
applied: the database is not as it was before the call. -/
theorem frontiers_insert_partial_apply_cex :
    (Frontiers.insert Fixtures.toyPrims Frontiers.FrontiersDB.default
        [Fixtures.bigFrontier, Fixtures.oneFrontier]).2 =
      .error Err.frontierBalanceOverflow ∧
    (Frontiers.insert Fixtures.toyPrims Frontiers.FrontiersDB.default
        [Fixtures.bigFrontier, Fixtures.oneFrontier]).1 ≠
      Frontiers.FrontiersDB.default ∧
    (Frontiers.insert Fixtures.toyPrims Frontiers.FrontiersDB.default
        [Fixtures.bigFrontier, Fixtures.oneFrontier]).1.frontiers =
      [Fixtures.bigFrontier] := by
  refine ⟨by decide, by decide, by decide⟩

/-- C3 (amended): `FrontiersDB::insert` first checks each batch entry
independently against the pre-call state for the balance-sum and epoch rules;
when this pre-check fails it returns an error with the database unchanged.
Otherwise the entries are applied in order, re-checked against the partially
updated state, so the resulting database is always the application of some
piece of the batch taken from the front — all of it exactly when `insert`
returns success. -/
theorem frontiers_insert_batch_behavior (P : Prims) (db : Frontiers.FrontiersDB)
    (new : List Frontiers.FrontierInfo) :
    (∀ e, Frontiers.couldInsertMany P db new = .error e →
      Frontiers.insert P db new = (db, .error e)) ∧
    ∃ k, k ≤ new.length ∧
      (Frontiers.insert P db new).1 = Frontiers.applyAll P db (new.take k) ∧
      ((Frontiers.insert P db new).2 = .ok () → k = new.length) := by
  constructor
  · intro e he
    simp [Frontiers.insert, he]
  · cases h : Frontiers.couldInsertMany P db new with
    | error e =>
      refine ⟨0, by simp, ?_, ?_⟩
      · simp [Frontiers.insert, h, Frontiers.applyAll]
      · simp [Frontiers.insert, h]
    | ok idxs =>
      have hmain := insertLoop_applied_front P new db
      simpa [Frontiers.insert, h] using hmain

/-- Witness for C3: with the database balance already at `u128::MAX`, a
balance-1 entry fails the pre-check, the database is unchanged, and the
applied front piece is empty. -/
theorem frontiers_insert_batch_behavior_witness :
    Frontiers.insert Fixtures.toyPrims Fixtures.fullDb [Fixtures.oneFrontier] =
      (Fixtures.fullDb, .error Err.frontierBalanceOverflow) ∧
    ∃ k, k ≤ 1 ∧
      (Frontiers.insert Fixtures.toyPrims Fixtures.fullDb [Fixtures.oneFrontier]).1 =
        Frontiers.applyAll Fixtures.toyPrims Fixtures.fullDb
          ([Fixtures.oneFrontier].take k) ∧
      ((Frontiers.insert Fixtures.toyPrims Fixtures.fullDb
          [Fixtures.oneFrontier]).2 = .ok () → k = 1) :=
  ⟨(frontiers_insert_batch_behavior Fixtures.toyPrims Fixtures.fullDb
      [Fixtures.oneFrontier]).1 Err.frontierBalanceOverflow (by decide),
   (frontiers_insert_batch_behavior Fixtures.toyPrims Fixtures.fullDb
      [Fixtures.oneFrontier]).2⟩

/-- C4: after `set_account_work` or `add_work`, every frontier of the database
is an untouched pre-call entry, or its cached work is absent, or its cached
work equals the supplied work and passes PoW verification at the configured
difficulty against the frontier's work hash (`cache_work_hash`: the account's
public-key bytes when the frontier is the unopened sentinel, the block's hash
otherwise). -/
theorem frontier_work_cache_validity (P : Prims) (config : Config)
    (db : Frontiers.FrontiersDB) (account : Account) (work_hash work : Nat) :
    (∀ f', f' ∈ (Frontiers.setAccountWork P config db account work).1.frontiers →
      f' ∈ db.frontiers ∨ f'.cached_work = none ∨
        (f'.cached_work = some work ∧
          P.checkWork (Frontiers.cacheWorkHash P f') config.WORK_DIFFICULTY work
            = true)) ∧
    (∀ f', f' ∈ (Frontiers.addWork P config db work_hash work).1.frontiers →
      f' ∈ db.frontiers ∨ f'.cached_work = none ∨
        (f'.cached_work = some work ∧
          P.checkWork (Frontiers.cacheWorkHash P f') config.WORK_DIFFICULTY work
            = true)) := by
  constructor
  · intro f' hf'
    cases hs : Frontiers.searchAccount db account with
    | none =>
      simp [Frontiers.setAccountWork, hs] at hf'
      exact Or.inl hf'
    | some i =>
      simp only [Frontiers.setAccountWork, hs] at hf'
      rcases List.mem_or_eq_of_mem_set hf' with hmem | heq
      · exact Or.inl hmem
      · subst heq
        rcases cacheWork_cases P config
            (db.frontiers.getD i (Frontiers.newUnopened P 0)) work with h | ⟨h1, h2⟩
        · exact Or.inr (Or.inl h)
        · exact Or.inr (Or.inr ⟨h1, h2⟩)
  · intro f' hf'
    cases hs : Frontiers.searchHash P db work_hash with
    | none =>
      simp [Frontiers.addWork, hs] at hf'
      exact Or.inl hf'
    | some i =>
      simp only [Frontiers.addWork, hs] at hf'
      rcases List.mem_or_eq_of_mem_set hf' with hmem | heq
      · exact Or.inl hmem
      · subst heq
        rcases cacheWork_cases P config
            (db.frontiers.getD i (Frontiers.newUnopened P 0)) work with h | ⟨h1, h2⟩
        · exact Or.inr (Or.inl h)
        · exact Or.inr (Or.inr ⟨h1, h2⟩)

/-- Witness for C4: caching work 1 on account 5's frontier keeps it, and the
kept work verifies against the frontier's work hash. -/
theorem frontier_work_cache_validity_witness :
    Frontiers.cacheWork Fixtures.toyPrims Fixtures.toyConfig Fixtures.c4Frontier 1 ∈
      Fixtures.c4Db.frontiers ∨
    (Frontiers.cacheWork Fixtures.toyPrims Fixtures.toyConfig
        Fixtures.c4Frontier 1).cached_work = none ∨
    ((Frontiers.cacheWork Fixtures.toyPrims Fixtures.toyConfig
        Fixtures.c4Frontier 1).cached_work = some 1 ∧
      Fixtures.toyPrims.checkWork
        (Frontiers.cacheWorkHash Fixtures.toyPrims
          (Frontiers.cacheWork Fixtures.toyPrims Fixtures.toyConfig
            Fixtures.c4Frontier 1))
        Fixtures.toyConfig.WORK_DIFFICULTY 1 = true) :=
  (frontier_work_cache_validity Fixtures.toyPrims Fixtures.toyConfig
      Fixtures.c4Db 5 0 1).1
    (Frontiers.cacheWork Fixtures.toyPrims Fixtures.toyConfig Fixtures.c4Frontier 1)
    (by decide)

/-- C5 counterexample: waiting on a hash with no pending job does not return a
"not requested" error — it panics via `expect`, as the method's own doc
comment states. -/
theorem work_wait_on_missing_cex :
    WorkMgr.waitOn WorkMgr.WorkManager.default 7 =
      .panicked "Attempted to wait on work which has not been requested" := rfl

/-- C5 (amended): for every work hash with no pending job, `wait_on` panics
with "Attempted to wait on work which hasn't been requested"; it does not
return an error. -/
theorem work_wait_on_missing_panics (m : WorkMgr.WorkManager) (work_hash : Nat)
    (h : WorkMgr.containsKey m work_hash = false) :
    WorkMgr.waitOn m work_hash =
      .panicked "Attempted to wait on work which has not been requested" := by
  cases hf : m.handles.find? (fun kv => kv.1 = work_hash) with
  | none => simp [WorkMgr.waitOn, hf]
  | some kv =>
    simp [WorkMgr.containsKey, hf] at h

/-- Witness for C5 at a manager holding an unrelated job. -/
theorem work_wait_on_missing_panics_witness :
    WorkMgr.waitOn ⟨[(3, ⟨3, .ok 9⟩)]⟩ 7 =
      .panicked "Attempted to wait on work which has not been requested" :=
  work_wait_on_missing_panics ⟨[(3, ⟨3, .ok 9⟩)]⟩ 7 (by decide)

/-- C7 counterexample: with the table at the one-account limit, re-inserting
the account already present returns `DBAccountLimitReached`, not the "already
present" result the claim requires, because the limit check precedes the
containment check. -/
theorem wallet_insert_at_limit_cex :
    Wallet.insert Fixtures.c7Config Fixtures.c7Db ⟨0, 5⟩ =
      (Fixtures.c7Db, .error Err.dbAccountLimitReached) ∧
    Wallet.insert Fixtures.c7Config Fixtures.c7Db ⟨0, 5⟩ ≠
      (Fixtures.c7Db, .ok true) := by
  refine ⟨by decide, by decide⟩

/-- C7 (amended): inserting an already-present account is idempotent — the
"already present" result with the table unchanged — only while the table size
is below `DB_NUMBER_OF_ACCOUNTS_LIMIT`; at or above the limit `insert`
returns `DBAccountLimitReached` and changes nothing, regardless of presence;
removing an absent account returns `AccountNotFound` and changes nothing. -/
theorem wallet_db_insert_remove_behavior (config : Config)
    (db : Wallet.GenericInfoDB) (info : Wallet.GenericInfo) (account : Account) :
    (db.info.length < config.DB_NUMBER_OF_ACCOUNTS_LIMIT →
      Wallet.contains db info.account = true →
      Wallet.insert config db info = (db, .ok true)) ∧
    (db.info.length ≥ config.DB_NUMBER_OF_ACCOUNTS_LIMIT →
      Wallet.insert config db info = (db, .error Err.dbAccountLimitReached)) ∧
    (Wallet.contains db account = false →
      Wallet.remove db account = (db, .error Err.accountNotFound)) := by
  refine ⟨?_, ?_, ?_⟩
  · intro hlt hc
    rw [Wallet.insert, if_neg (by omega)]
    rw [Wallet.forceInsert, if_pos hc]
  · intro hge
    rw [Wallet.insert, if_pos hge]
  · intro hc
    have hfind : db.info.find? (fun item => item.account = account) = none := by
      cases hf : db.info.find? (fun item => item.account = account) with
      | none => rfl
      | some v => simp [Wallet.contains, Wallet.getInfo, hf] at hc
    rw [Wallet.remove, findIdx?_none_of_find?_none _ db.info 0 hfind]

/-- Witness for C7 at concrete tables: a below-limit duplicate insert is
idempotent, an at-limit insert is rejected, and removing an unknown account
errors. -/
theorem wallet_db_insert_remove_behavior_witness :
    Wallet.insert Fixtures.toyConfig Fixtures.c7Db ⟨0, 5⟩ =
      (Fixtures.c7Db, .ok true) ∧
    Wallet.insert Fixtures.c7Config Fixtures.c7Db ⟨1, 6⟩ =
      (Fixtures.c7Db, .error Err.dbAccountLimitReached) ∧
    Wallet.remove Fixtures.c7Db 9 = (Fixtures.c7Db, .error Err.accountNotFound) :=
  ⟨(wallet_db_insert_remove_behavior Fixtures.toyConfig Fixtures.c7Db ⟨0, 5⟩ 9).1
      (by decide) (by decide),
   (wallet_db_insert_remove_behavior Fixtures.c7Config Fixtures.c7Db ⟨1, 6⟩ 9).2.1
      (by decide),
   (wallet_db_insert_remove_behavior Fixtures.toyConfig Fixtures.c7Db ⟨0, 5⟩ 9).2.2
      (by decide)⟩

/-- C6 counterexample: with one capable node and a retry limit of 2, the node
fails on pass 0 and succeeds on pass 1; the call returns the item with an
*empty* failure list — the pass-0 failure recorded since the call began is not
returned, because the failure list is re-initialized at the top of every
pass. -/
theorem rpc_dispatch_drops_prior_failures_cex :
    RpcPool.rpcDispatch Fixtures.toyConfig .process 0 Fixtures.c6Shuffles
        Fixtures.c6Call = .ok (42, []) ∧
    RpcPool.rpcDispatch Fixtures.toyConfig .process 0 Fixtures.c6Shuffles
        Fixtures.c6Call ≠ .ok (42, [⟨RpcError.other, 1⟩]) := by
  refine ⟨by decide, by decide⟩

/-- C6 (amended): a wrapped RPC-pool method makes at most `RPC_RETRY_LIMIT`
passes over the capability-filtered candidate list; if a candidate succeeds on
pass `p`, every candidate of the earlier passes failed and the method returns
the item together with the failures of the *current pass only* (those before
the succeeding candidate); if no candidate ever succeeds, it returns
`RpcCommandFailed`. -/
theorem rpc_dispatch_retry_behavior {α : Type} (config : Config)
    (command : RpcPool.RpcCommand) (now : Nat) (shuffles : Nat → List RpcPool.Rpc)
    (call : Nat → RpcPool.Rpc → Except RpcError α) :
    (∀ (item : α) (fs : List RpcPool.RpcFailure),
      RpcPool.rpcDispatch config command now shuffles call = .ok (item, fs) →
      ∃ p, p < config.RPC_RETRY_LIMIT ∧
        (∀ q, q < p →
          ∀ rpc ∈ RpcPool.getUsableRpcs config command now (shuffles q),
            ∀ x, call q rpc ≠ .ok x) ∧
        ∃ pre rpc post,
          RpcPool.getUsableRpcs config command now (shuffles p) =
            pre ++ rpc :: post ∧
          (∀ r ∈ pre, ∀ x, call p r ≠ .ok x) ∧
          call p rpc = .ok item ∧
          fs = pre.map (fun r => ⟨RpcPool.errValue (call p r), r.url⟩)) ∧
    ((∀ p, p < config.RPC_RETRY_LIMIT →
        ∀ rpc ∈ RpcPool.getUsableRpcs config command now (shuffles p),
          ∀ x, call p rpc ≠ .ok x) →
      RpcPool.rpcDispatch config command now shuffles call =
        .error Err.rpcCommandFailed) := by
  constructor
  · intro item fs h
    obtain ⟨d, hd, hfail, hrun⟩ :=
      dispatchAux_ok_split config command now shuffles call
        config.RPC_RETRY_LIMIT 0 item fs h
    rw [Nat.zero_add] at hrun
    obtain ⟨pre, rpc, post, hsplit, hpre, hcall, hfs⟩ :=
      runPass_some_split (call d) _ [] item fs hrun
    refine ⟨d, hd, ?_, pre, rpc, post, hsplit, hpre, hcall, by simpa using hfs⟩
    intro q hq
    exact hfail q (Nat.zero_le _) (by omega)
  · intro h
    exact dispatchAux_all_fail config command now shuffles call
      config.RPC_RETRY_LIMIT 0 (fun q _ hq2 => h q (by omega))

/-- Witness for C6: the success side at the two-pass fixture, and the
exhaustion side when every call fails. -/
theorem rpc_dispatch_retry_behavior_witness :
    (∃ p, p < Fixtures.toyConfig.RPC_RETRY_LIMIT ∧
      (∀ q, q < p →
        ∀ rpc ∈ RpcPool.getUsableRpcs Fixtures.toyConfig .process 0
            (Fixtures.c6Shuffles q),
          ∀ x, Fixtures.c6Call q rpc ≠ .ok x) ∧
      ∃ pre rpc post,
        RpcPool.getUsableRpcs Fixtures.toyConfig .process 0
            (Fixtures.c6Shuffles p) = pre ++ rpc :: post ∧
        (∀ r ∈ pre, ∀ x, Fixtures.c6Call p r ≠ .ok x) ∧
        Fixtures.c6Call p rpc = .ok 42 ∧
        ([] : List RpcPool.RpcFailure) =
          pre.map (fun r => ⟨RpcPool.errValue (Fixtures.c6Call p r), r.url⟩)) ∧
    RpcPool.rpcDispatch Fixtures.toyConfig .process 0 Fixtures.c6Shuffles
      Fixtures.c6FailCall = .error Err.rpcCommandFailed :=
  ⟨(rpc_dispatch_retry_behavior Fixtures.toyConfig .process 0 Fixtures.c6Shuffles
      Fixtures.c6Call).1 42 [] (by decide),
   (rpc_dispatch_retry_behavior Fixtures.toyConfig .process 0 Fixtures.c6Shuffles
      Fixtures.c6FailCall).2
     (fun p _ rpc _ x hx => by simp [Fixtures.c6FailCall] at hx)⟩

/-- C8: decrypting the encryption of a `WalletData` under the same password
succeeds with the identical `WalletData`, and decrypting under a password
whose derived key differs fails with `InvalidPassword` — relative to the
contracts of the external Argon2/AES-GCM/bincode primitives at the values
involved (AEAD round-trip, AEAD rejection under the wrong key, serializer
round-trip, byte-ranged randomness and ciphertext). -/
theorem wallet_encrypt_decrypt_roundtrip (C : Storage.CryptoPrims)
    (wd : Storage.WalletData) (id : Nat) (pw pw' salt nonce : List Nat)
    (hsalt : ∀ b ∈ salt, b < 256) (hnonce : ∀ b ∈ nonce, b < 256)
    (hcipher : ∀ b ∈ C.aeadSeal (C.kdf pw salt) nonce (C.ser wd), b < 256)
    (hopen : C.aeadOpen (C.kdf pw salt) nonce
        (C.aeadSeal (C.kdf pw salt) nonce (C.ser wd)) = some (C.ser wd))
    (hdeser : C.deser (C.ser wd) = some wd)
    (hwrong : C.aeadOpen (C.kdf pw' salt) nonce
        (C.aeadSeal (C.kdf pw salt) nonce (C.ser wd)) = none) :
    Storage.decrypt C (Storage.encrypt C wd id pw salt nonce) pw = .ok wd ∧
    Storage.decrypt C (Storage.encrypt C wd id pw salt nonce) pw' =
      .error Err.invalidPassword := by
  constructor
  · simp [Storage.encrypt, Storage.decrypt, hexDecode_hexEncode salt hsalt,
      hexDecode_hexEncode nonce hnonce, hexDecode_hexEncode _ hcipher, hopen, hdeser]
  · simp [Storage.encrypt, Storage.decrypt, hexDecode_hexEncode salt hsalt,
      hexDecode_hexEncode nonce hnonce, hexDecode_hexEncode _ hcipher, hwrong]

/-- Witness for C8 with concrete toy primitives satisfying the contracts. -/
theorem wallet_encrypt_decrypt_roundtrip_witness :
    Storage.decrypt Fixtures.toyCrypto
        (Storage.encrypt Fixtures.toyCrypto Fixtures.wdFix 0 [1] [3] [4]) [1] =
      .ok Fixtures.wdFix ∧
    Storage.decrypt Fixtures.toyCrypto
        (Storage.encrypt Fixtures.toyCrypto Fixtures.wdFix 0 [1] [3] [4]) [2] =
      .error Err.invalidPassword :=
  wallet_encrypt_decrypt_roundtrip Fixtures.toyCrypto Fixtures.wdFix 0 [1] [2]
    [3] [4] (by decide) (by decide) (by decide) (by decide) (by decide) (by decide)

/-- C10: when the account is absent from both the normal and the derived
wallet tables but present in the FrontiersDB, `remove_account` returns
`AccountNotFound` and nonetheless leaves the frontier removed — the
wallet-table error does not roll back the frontier removal, because all three
removals are evaluated before the error is propagated. -/
theorem remove_account_error_keeps_frontier_removed
    (client : Wallet.CoreClientState) (account : Account)
    (h1 : client.wallet_db.account_db.info.find?
        (fun info => info.account = account) = none)
    (h2 : client.wallet_db.derived_account_db.info.find?
        (fun info => info.account = account) = none)
    (h3 : (Frontiers.searchAccount client.frontiers_db account).isSome = true) :
    (Wallet.removeAccount client account).2 = .error Err.accountNotFound ∧
    (Wallet.removeAccount client account).1.wallet_db = client.wallet_db ∧
    (Wallet.removeAccount client account).1.frontiers_db =
      (Frontiers.remove client.frontiers_db account).1 ∧
    (Wallet.removeAccount client account).1.frontiers_db.frontiers.length + 1 =
      client.frontiers_db.frontiers.length := by
  obtain ⟨i, hi⟩ := Option.isSome_iff_exists.mp h3
  have hidx1 := findIdx?_none_of_find?_none _ client.wallet_db.account_db.info 0 h1
  have hidx2 :=
    findIdx?_none_of_find?_none _ client.wallet_db.derived_account_db.info 0 h2
  have hra : Wallet.remove client.wallet_db.account_db account =
      (client.wallet_db.account_db, .error Err.accountNotFound) := by
    simp [Wallet.remove, hidx1]
  have hrd : Wallet.removeDerived client.wallet_db.derived_account_db account =
      (client.wallet_db.derived_account_db, .error Err.accountNotFound) := by
    simp [Wallet.removeDerived, hidx2]
  have hbounds := findIdx?_some_bounds _ client.frontiers_db.frontiers 0 i hi
  refine ⟨?_, ?_, ?_, ?_⟩
  · simp [Wallet.removeAccount, hra, hrd, Frontiers.remove, hi]
  · simp [Wallet.removeAccount, hra, hrd]
  · simp [Wallet.removeAccount, hra, hrd]
  · simp only [Wallet.removeAccount, hra, hrd, Frontiers.remove, hi]
    rw [List.length_eraseIdx]
    have hlt : i < client.frontiers_db.frontiers.length := by omega
    simp [hlt]
    omega

/-- Witness for C10: a client whose wallet tables are empty but whose
FrontiersDB holds account 3. -/
theorem remove_account_error_keeps_frontier_removed_witness :
    (Wallet.removeAccount Fixtures.c10Client 3).2 = .error Err.accountNotFound ∧
    (Wallet.removeAccount Fixtures.c10Client 3).1.wallet_db =
      Fixtures.c10Client.wallet_db ∧
    (Wallet.removeAccount Fixtures.c10Client 3).1.frontiers_db =
      (Frontiers.remove Fixtures.c10Client.frontiers_db 3).1 ∧
    (Wallet.removeAccount Fixtures.c10Client 3).1.frontiers_db.frontiers.length + 1 =
      Fixtures.c10Client.frontiers_db.frontiers.length :=
  remove_account_error_keeps_frontier_removed Fixtures.c10Client 3
    (by decide) (by decide) (by decide)

/-- C1: in the same-account sub-mode of the client revision
(`_send_camo_same`, src/client/src/client/send.rs lines 128–183), the
`process` RPC call for the *masked* send block (link = the derived one-time
account 77) is issued and completed before the `process` call for the notify
block (link = the notification account 200, representative = the ECDH
payload 201) — the opposite of the notify-first ordering the claim states. -/
theorem camo_send_same_client_publishes_masked_first :
    (Engine.sendCamoSameClient Fixtures.camoEnv Fixtures.camoPay).2 =
      [Engine.RpcEvent.processCall ⟨.send, 5, 1007, 99, 8, 77, 3, 6⟩,
       Engine.RpcEvent.workRequest 807,
       Engine.RpcEvent.processCall ⟨.send, 5, 807, 201, 7, 200, 3, 6⟩,
       Engine.RpcEvent.workRequest 707] ∧
    (⟨.send, 5, 1007, 99, 8, 77, 3, 6⟩ : Block).link =
      accountBytes (Fixtures.camoEnv.camo.deriveAccount 55) ∧
    (⟨.send, 5, 807, 201, 7, 200, 3, 6⟩ : Block).link = accountBytes 200 := by
  refine ⟨by decide, by decide, by decide⟩

/-- C2: in the same-account sub-mode of the core revision
(`_send_camo_same`, src/client/core/src/client/send.rs lines 140–205), the
published masked send block is built against the original frontier `F`:
its `previous` equals `F`'s hash (1007), not the published notify block's
hash, and its balance is `F.balance - sender_amount` (8), not
`F.balance - notification_amount - sender_amount` (7) — the two blocks do not
chain as the claim states. -/
theorem camo_send_same_core_masked_block_does_not_chain :
    (Engine.sendCamoSameCore Fixtures.camoEnv Fixtures.camoPay).2 =
      [Engine.RpcEvent.processCall ⟨.send, 5, 1007, 201, 9, 200, 3, 6⟩,
       Engine.RpcEvent.workRequest 907,
       Engine.RpcEvent.processCall ⟨.send, 5, 1007, 99, 8, 77, 3, 6⟩,
       Engine.RpcEvent.workRequest 807] ∧
    (⟨.send, 5, 1007, 99, 8, 77, 3, 6⟩ : Block).previous =
      Fixtures.toyPrims.blockHash ⟨.receive, 5, 0, 99, 10, 0, 0, 0⟩ ∧
    (⟨.send, 5, 1007, 99, 8, 77, 3, 6⟩ : Block).previous ≠
      Fixtures.toyPrims.blockHash ⟨.send, 5, 1007, 201, 9, 200, 3, 6⟩ ∧
    (⟨.send, 5, 1007, 99, 8, 77, 3, 6⟩ : Block).balance = 10 - 2 ∧
    (⟨.send, 5, 1007, 99, 8, 77, 3, 6⟩ : Block).balance ≠ 10 - 1 - 2 := by
  refine ⟨by decide, by decide, by decide, by decide, by decide⟩

/-- C9: `receive` on a single receivable whose recipient (account 6) has no
entry in the FrontiersDB panics at
`expect("Failed to catch invalid receivable transaction")` instead of
reporting the receivable among the unreceived transactions: the shadow-map
construction only logs the missing frontier and does not exclude the
receivable from the main loop. -/
theorem receive_unknown_frontier_panics :
    Recv.receive Fixtures.camoEnv [⟨6, 11, 1⟩] =
      (.panicked "Failed to catch invalid receivable transaction", []) := rfl
